import Mathlib

/-!
Shallow embedding of the onkyo-eiscp protocol engine (`eiscp/core.py`,
`eiscp/utils.py`) in Lean 4, together with theorems settling the spec
claims about packet framing, the command grammar translator, discovery
de-duplication, response filtering and the asynchronous wrapper.

Python strings are modelled as `List Char` (`PyStr`), byte strings as
`List Nat` with every element below 256.  Python exceptions are modelled
by the `PyError` type; a fallible Python function becomes a function
into `Except PyError _` or `Option _`.
-/

set_option maxRecDepth 4000

namespace Eiscp

/-- Python `str` values are modelled as lists of characters. -/
abbrev PyStr := List Char

/-- The Python exception values raised by the embedded code.  `valueError`
carries the formatted message string, the remaining constructors model the
built-in exception classes raised without a message we need to track. -/
inductive PyError where
  | valueError (msg : PyStr)
  | keyError
  | indexError
  | assertionError
  | attributeError
  | notImplementedError
  deriving DecidableEq

/-- The Python exception *class* of an exception value: two `ValueError`s
with different messages are instances of the same class. -/
inductive PyClass where
  | valueError
  | keyError
  | indexError
  | assertionError
  | attributeError
  | notImplementedError
  deriving DecidableEq

deriving instance DecidableEq for Except

/-- Map an exception value to its class. -/
def PyError.cls : PyError → PyClass
  | .valueError _ => .valueError
  | .keyError => .keyError
  | .indexError => .indexError
  | .assertionError => .assertionError
  | .attributeError => .attributeError
  | .notImplementedError => .notImplementedError

/-- The class of the error of a failed computation, `none` on success. -/
def errClass {α : Type} : Except PyError α → Option PyClass
  | .error e => some e.cls
  | .ok _ => none

/-! ## UTF-8 (Python `str.encode('utf-8')` / `bytes.decode()`) -/

/-- Encode one Unicode code point as UTF-8 bytes (Python `str.encode`). -/
def utf8EncodeChar (n : Nat) : List Nat :=
  if n < 0x80 then [n]
  else if n < 0x800 then [0xC0 + n / 64, 0x80 + n % 64]
  else if n < 0x10000 then
    [0xE0 + n / 4096, 0x80 + n / 64 % 64, 0x80 + n % 64]
  else
    [0xF0 + n / 262144, 0x80 + n / 4096 % 64, 0x80 + n / 64 % 64, 0x80 + n % 64]

/-- `s.encode('utf-8')`. -/
def utf8Encode (s : PyStr) : List Nat :=
  s.flatMap (fun c => utf8EncodeChar c.toNat)

/-- Is `n` a UTF-8 continuation byte (`0x80`–`0xBF`)? -/
def isCont (n : Nat) : Bool :=
  0x80 ≤ n && n ≤ 0xBF

/-- The code point contributed by a continuation byte. -/
def contVal (n : Nat) : Nat := n - 0x80

/-- A strict-UTF-8 multi-byte sequence with lead byte `b0` (not ASCII) and
remaining input `rest` (as in CPython's decoder): the decoded character and
the remaining bytes, or `none` on an invalid sequence.  Overlong encodings,
surrogates and code points above `0x10FFFF` are rejected, as CPython does. -/
def utf8StepMulti (b0 : Nat) (rest : List Nat) : Option (Char × List Nat) :=
  if 0xC2 ≤ b0 && b0 ≤ 0xDF then
    match rest with
    | b1 :: rest2 =>
      if isCont b1 then
        some (Char.ofNat ((b0 - 0xC0) * 64 + contVal b1), rest2)
      else none
    | [] => none
  else if 0xE0 ≤ b0 && b0 ≤ 0xEF then
    match rest with
    | b1 :: b2 :: rest3 =>
      if (if b0 = 0xE0 then 0xA0 else 0x80) ≤ b1 &&
          b1 ≤ (if b0 = 0xED then 0x9F else 0xBF) && isCont b2 then
        some (Char.ofNat ((b0 - 0xE0) * 4096 + contVal b1 * 64 + contVal b2),
          rest3)
      else none
    | _ => none
  else if 0xF0 ≤ b0 && b0 ≤ 0xF4 then
    match rest with
    | b1 :: b2 :: b3 :: rest4 =>
      if (if b0 = 0xF0 then 0x90 else 0x80) ≤ b1 &&
          b1 ≤ (if b0 = 0xF4 then 0x8F else 0xBF) && isCont b2 && isCont b3 then
        some (Char.ofNat
            ((b0 - 0xF0) * 262144 + contVal b1 * 4096 +
              contVal b2 * 64 + contVal b3),
          rest4)
      else none
    | _ => none
  else none

/-- One strict-UTF-8 sequence at the head of a byte list: an ASCII byte
stands for itself, anything else is delegated to `utf8StepMulti`. -/
def utf8Step : List Nat → Option (Char × List Nat)
  | [] => none
  | b0 :: rest =>
    if b0 < 0x80 then some (Char.ofNat b0, rest) else utf8StepMulti b0 rest

/-- Iterate `utf8Step` to the end of the input.  The fuel argument only
bounds the recursion; every step consumes at least one byte, so fuel equal
to the input length (as `decodeUtf8` passes) never runs out. -/
def decodeUtf8Go : Nat → List Nat → Option PyStr
  | _, [] => some []
  | 0, _ :: _ => none
  | fuel + 1, b0 :: rest =>
    (utf8Step (b0 :: rest)).bind
      (fun p => (decodeUtf8Go fuel p.2).map (fun cs => p.1 :: cs))

/-- Strict UTF-8 decoding of a byte list (Python `bytes.decode()`), returning
`none` exactly when Python raises `UnicodeDecodeError`. -/
def decodeUtf8 (b : List Nat) : Option PyStr :=
  decodeUtf8Go b.length b

/-! ## ISCPMessage (`core.py` lines 17–50) -/

/-- `str(ISCPMessage(data))`: `'!1{data}\r'` — start character, destination
unit type `1`, trailing CR. -/
def iscpMessageStr (data : PyStr) : PyStr :=
  '!' :: '1' :: data ++ ['\r']

/-- The terminator characters accepted by `ISCPMessage.parse`. -/
def TERMINATORS : List Char := ['\n', '\r']

/-- The EOF sentinel expected by `ISCPMessage.parse` (`'\x1a'`). -/
def EOFCHAR : Char := Char.ofNat 26

/-- `ISCPMessage.parse(data)`: checks the `'!1'` preamble, skips one or two
trailing terminator characters, then requires the EOF sentinel `'\x1a'` at
that position and returns `data[2:eof_offset]`.  Any failed `assert` (and a
Python `IndexError` from indexing an out-of-range position) yields `none`. -/
def iscpMessageParse (data : PyStr) : Option PyStr :=
  if data.take 2 = ['!', '1'] then
    let r := data.reverse
    let t : Nat :=
      match r.get? 0 with
      | some c0 =>
        if c0 ∈ TERMINATORS then
          match r.get? 1 with
          | some c1 => if c1 ∈ TERMINATORS then 2 else 1
          | none => 1
        else 0
      | none => 0
    match r.get? t with
    | some e => if e = EOFCHAR then some ((data.take (data.length - (t + 1))).drop 2) else none
    | none => none
  else none

/-! ## eISCPPacket (`core.py` lines 53–122) -/

/-- The parsed eISCP header (`eISCPPacket.header` namedtuple).  `version` is
an `Int` because `struct.unpack` format `b` is a *signed* byte. -/
structure Header where
  magic : PyStr
  header_size : Nat
  data_size : Nat
  version : Int
  reserved : PyStr
  deriving DecidableEq

/-- Big-endian `struct.pack('I', n)` (requires `n < 2^32`, checked by caller). -/
def u32be (n : Nat) : List Nat :=
  [n / 2 ^ 24 % 256, n / 2 ^ 16 % 256, n / 2 ^ 8 % 256, n % 256]

/-- Recombine four big-endian bytes into the unsigned 32-bit value. -/
def deU32 (b0 b1 b2 b3 : Nat) : Nat :=
  ((b0 * 256 + b1) * 256 + b2) * 256 + b3

/-- `struct.unpack('b', v)`: interpret a byte as a signed 8-bit integer. -/
def sByte (v : Nat) : Int :=
  if v < 128 then (v : Int) else (v : Int) - 256

/-- The four magic bytes `b'ISCP'`. -/
def MAGIC : List Nat := [73, 83, 67, 80]

/-- `eISCPPacket.__init__`: build the 16-byte header (magic, header size 16,
data size = `len(iscp_message)` in characters, version 1, three reserved zero
bytes) followed by the UTF-8 encoded message.  `struct.pack('I', ...)` fails
(`struct.error`) when the length does not fit in 32 bits, hence `Option`. -/
def eISCPPacketRaw (iscp_message : PyStr) : Option (List Nat) :=
  if iscp_message.length < 2 ^ 32 then
    some (MAGIC ++ u32be 16 ++ u32be iscp_message.length ++ [1, 0, 0, 0] ++
      utf8Encode iscp_message)
  else none

/-- `command_to_packet(command)`: wrap in an `ISCPMessage` and frame. -/
def commandToPacket (command : PyStr) : Option (List Nat) :=
  eISCPPacketRaw (iscpMessageStr command)

/-- `eISCPPacket.parse_header(bytes)`: requires exactly 16 bytes, unpacks
`'! 4s I I b 3s'` (magic `b[0:4]`, header size `b[4:8]` big-endian, data
size `b[8:12]` big-endian, version `b[12]` signed, reserved `b[13:16]`),
decodes the magic and the reserved bytes (a `UnicodeDecodeError` is a
failure), then asserts `magic == 'ISCP'` and `header_size == 16`. -/
def parseHeader (b : List Nat) : Option Header :=
  match b with
  | [m0, m1, m2, m3, h0, h1, h2, h3, d0, d1, d2, d3, v, r0, r1, r2] =>
    (decodeUtf8 [m0, m1, m2, m3]).bind (fun magicS =>
      (decodeUtf8 [r0, r1, r2]).bind (fun reservedS =>
        if magicS = ['I', 'S', 'C', 'P'] ∧ deU32 h0 h1 h2 h3 = 16 then
          some ⟨magicS, deU32 h0 h1 h2 h3, deU32 d0 d1 d2 d3, sByte v,
            reservedS⟩
        else none))
  | _ => none

/-- `eISCPPacket.parse(bytes)`: parse the header from the first 16 bytes,
decode `bytes[header_size : header_size + data_size]`, and assert that the
decoded data has exactly `data_size` characters. -/
def packetParse (b : List Nat) : Option PyStr :=
  match parseHeader (b.take 16) with
  | none => none
  | some h =>
    match decodeUtf8 ((b.drop h.header_size).take h.data_size) with
    | none => none
    | some data => if data.length = h.data_size then some data else none

/-- The full decode chain of spec §8 property 1: eISCP packet decode
(header + payload) followed by `ISCPMessage.parse`. -/
def fullDecode (b : List Nat) : Option PyStr :=
  (packetParse b).bind iscpMessageParse

/-- Encode a wire command then run the full decode chain. -/
def roundTrip (c : PyStr) : Option PyStr :=
  (commandToPacket c).bind fullDecode

/-! ## Python string helpers used by the translator -/

/-- Characters Python's `str.strip()` removes (ASCII whitespace plus the
field/record separators CPython also classifies as whitespace). -/
def pyWhitespace : List Char :=
  [' ', '\t', '\n', '\r', Char.ofNat 11, Char.ofNat 12,
   Char.ofNat 28, Char.ofNat 29, Char.ofNat 30, Char.ofNat 31, Char.ofNat 133]

/-- `s.strip()`. -/
def pyStrip (s : PyStr) : PyStr :=
  ((s.dropWhile (· ∈ pyWhitespace)).reverse.dropWhile (· ∈ pyWhitespace)).reverse

/-- `s.lower()` (ASCII; all strings handled by the translator are ASCII). -/
def pyLower (s : PyStr) : PyStr :=
  s.map Char.toLower

/-- The `norm` lambda of `command_to_iscp`: `s.strip().lower()`. -/
def norm (s : PyStr) : PyStr :=
  pyLower (pyStrip s)

/-- `re.split('[c...]', s)` for a character class: split at every occurrence
of any separator character, keeping empty fields.  Always returns at least
one field. -/
def pySplit (seps : List Char) : PyStr → List PyStr
  | [] => [[]]
  | c :: rest =>
    if c ∈ seps then [] :: pySplit seps rest
    else
      match pySplit seps rest with
      | h :: t => (c :: h) :: t
      | [] => [[c]]

/-- `re.split('[c...]', s, 1)`: split at the first occurrence of any
separator character; `none` when no separator occurs. -/
def pySplitFirst (seps : List Char) : PyStr → Option (PyStr × PyStr)
  | [] => none
  | c :: rest =>
    if c ∈ seps then some ([], rest)
    else (pySplitFirst seps rest).map (fun p => (c :: p.1, p.2))

/-- Python `str.isdigit()` restricted to ASCII: nonempty and all `'0'`–`'9'`. -/
def pyIsDigit (s : PyStr) : Bool :=
  decide (s ≠ []) && s.all Char.isDigit

/-- `int(s)` for an all-digit string (the only way the translator calls it). -/
def decimalVal (s : PyStr) : Nat :=
  s.foldl (fun acc c => acc * 10 + (c.toNat - 48)) 0

/-- Lowercase hex digit character for a value below 16. -/
def hexDigitChar (d : Nat) : Char :=
  if d < 10 then Char.ofNat (48 + d) else Char.ofNat (87 + d)

/-- Fuel-driven core of `hex(n)[2:]` for nonnegative `n` (lowercase). -/
def natHexCore : Nat → Nat → PyStr
  | 0, _ => []
  | fuel + 1, n =>
    if n < 16 then [hexDigitChar n]
    else natHexCore fuel (n / 16) ++ [hexDigitChar (n % 16)]

/-- `hex(n)[2:]` for `n : Nat` (lowercase, `'0'` for zero). -/
def natHexLower (n : Nat) : PyStr :=
  natHexCore (n + 1) n

/-- `s.zfill(2)` for a sign-free string: left-pad with `'0'` to length 2. -/
def zfill2 (s : PyStr) : PyStr :=
  if s.length < 2 then List.replicate (2 - s.length) '0' ++ s else s

/-- `s.upper()` (ASCII). -/
def pyUpper (s : PyStr) : PyStr :=
  s.map Char.toUpper

/-- `hex(int(argument))[2:].zfill(2).upper()` — the wire formatting of an
in-range numeric argument in `command_to_iscp`. -/
def hexFormat (argument : PyStr) : PyStr :=
  pyUpper (zfill2 (natHexLower (decimalVal argument)))

/-! ## ValueRange (`utils.py` lines 1–16) -/

/-- `range(a, b)` over Python integers, as a list. -/
def pyRange (a b : Int) : List Int :=
  (List.range (b - a).toNat).map (fun (n : Nat) => a + (n : Int))

/-- `utils.ValueRange`: a start/end pair whose constructor materialises
`tuple(range(start, end + 1))`; the source field named `end` is called
`stop` here because `end` is a Lean keyword. -/
structure ValueRange where
  start : Int
  stop : Int
  rangeElems : List Int
  deriving DecidableEq

/-- `ValueRange(start, end)`: `_range = tuple(range(start, end + 1))`. -/
def ValueRange.mk' (start stop : Int) : ValueRange :=
  ⟨start, stop, pyRange start (stop + 1)⟩

/-- `value in self._range` — `ValueRange.__contains__`. -/
def ValueRange.contains (r : ValueRange) (v : Int) : Bool :=
  r.rangeElems.contains v

/-! ## The external command descriptor tables (`eiscp/commands.py`)

The generated dictionary module `eiscp/commands.py` is not part of the
sources here; only its consumers are.  The fragments below are modelled
from the spec (§3 Command Descriptor, §6, §8 properties 2–4 and the
docstring examples quoted in §4.2). -/

/-- First-match association lookup on a Python-dict model (insertion order). -/
def alook {α : Type} (k : PyStr) : List (PyStr × α) → Option α
  | [] => none
  | (k', v) :: rest => if k' = k then some v else alook k rest

/-- A `{'name': ...}` entry of a command's `values` dict. -/
structure ValueEntry where
  name : PyStr
  deriving DecidableEq

/-- A `COMMANDS[zone][prefix]` entry: display name and wire-token table.
Non-string keys of the Python `values` dict (ranges, patterns) can never
equal the string `args` is compared against, so only string keys appear. -/
structure CommandEntry where
  name : PyStr
  values : List (PyStr × ValueEntry)
  deriving DecidableEq

/-- A key of a `VALUE_MAPPINGS[zone][prefix]` dict: either a literal
argument alias or a `ValueRange`. -/
inductive ArgKey where
  | tok (s : PyStr)
  | vrange (r : ValueRange)
  deriving DecidableEq

/-- Modelled from the spec: the zone-alias table `commands.ZONE_MAPPINGS`
(`eiscp/commands.py` is missing from the sources).  No alias is needed by
any claim, so the modelled table is empty and `ZONE_MAPPINGS.get(zone, zone)`
always returns `zone` itself. -/
def ZONE_MAPPINGS : List (PyStr × PyStr) := []

/-- Modelled from the spec: the `commands.COMMANDS` table fragment
(`eiscp/commands.py` is missing from the sources) — zone → 3-char prefix →
`{name, values}` for the zones (main, zone2, zone3, zone4, dock) and the
commands the spec names: `PWR` system-power, `MVL` master-volume and `AMT`
audio-muting in main; `ZVL` volume and `ZMT` muting in zone2. -/
def COMMANDS : List (PyStr × List (PyStr × CommandEntry)) :=
  [ ( "main".data,
      [ ( "PWR".data,
          { name := "system-power".data,
            values := [("00".data, ⟨ "standby".data ⟩), ("01".data, ⟨ "on".data ⟩)] }),
        ( "MVL".data,
          { name := "master-volume".data,
            values := [("UP".data, ⟨ "level-up".data ⟩), ("DOWN".data, ⟨ "level-down".data ⟩)] }),
        ( "AMT".data,
          { name := "audio-muting".data,
            values := [("00".data, ⟨ "off".data ⟩), ("01".data, ⟨ "on".data ⟩)] })]),
    ( "zone2".data,
      [ ( "ZVL".data,
          { name := "volume".data,
            values := [("UP".data, ⟨ "level-up".data ⟩)] }),
        ( "ZMT".data,
          { name := "muting".data,
            values := [("00".data, ⟨ "off".data ⟩), ("01".data, ⟨ "on".data ⟩)] })]),
    ( "zone3".data, []),
    ( "zone4".data, []),
    ( "dock".data, [])]

/-- Modelled from the spec: the `commands.COMMAND_MAPPINGS` alias table
(`eiscp/commands.py` is missing from the sources) — zone → human-readable
command name → 3-char prefix. -/
def COMMAND_MAPPINGS : List (PyStr × List (PyStr × PyStr)) :=
  [ ( "main".data,
      [ ("system-power".data, "PWR".data), ("power".data, "PWR".data),
        ("master-volume".data, "MVL".data), ("volume".data, "MVL".data),
        ("audio-muting".data, "AMT".data)]),
    ( "zone2".data,
      [ ("volume".data, "ZVL".data), ("muting".data, "ZMT".data)]),
    ( "zone3".data, []),
    ( "zone4".data, []),
    ( "dock".data, [])]

/-- Modelled from the spec: the `commands.VALUE_MAPPINGS` table fragment
(`eiscp/commands.py` is missing from the sources) — zone → prefix →
argument alias or numeric `ValueRange` → wire token.  Volume commands carry
a `ValueRange(0, 100)` key; `system-power` has the `standby`/`off` aliases
both mapping to `'00'` (spec §8 property 2). -/
def VALUE_MAPPINGS : List (PyStr × List (PyStr × List (ArgKey × PyStr))) :=
  [ ( "main".data,
      [ ( "PWR".data,
          [ (.tok ("standby".data), "00".data), (.tok ("off".data), "00".data),
            (.tok ("on".data), "01".data)]),
        ( "MVL".data,
          [ (.vrange (ValueRange.mk' 0 100), [] ),
            (.tok ("level-up".data), "UP".data), (.tok ("level-down".data), "DOWN".data)]),
        ( "AMT".data,
          [ (.tok ("off".data), "00".data), (.tok ("on".data), "01".data)])]),
    ( "zone2".data,
      [ ( "ZVL".data,
          [ (.vrange (ValueRange.mk' 0 100), [] ),
            (.tok ("level-up".data), "UP".data)]),
        ( "ZMT".data,
          [ (.tok ("off".data), "00".data), (.tok ("on".data), "01".data)])]),
    ( "zone3".data, []),
    ( "zone4".data, []),
    ( "dock".data, [])]

/-! ## command_to_iscp (`core.py` lines 133–228) -/

/-- `'"{}" is not a valid zone'.format(zone)`. -/
def msgUnknownZone (zone : PyStr) : PyStr :=
  "\"".data ++ zone ++ "\" is not a valid zone".data

/-- `'"{}" is not a valid command in zone "{}"'.format(command, zone)`. -/
def msgUnknownCommand (command zone : PyStr) : PyStr :=
  "\"".data ++ command ++ "\" is not a valid command in zone \"".data ++
    zone ++ "\"".data

/-- `'"{}" is not a valid argument for command "{}" in zone "{}"'`. -/
def msgUnknownArgument (argument command zone : PyStr) : PyStr :=
  "\"".data ++ argument ++ "\" is not a valid argument for command \"".data ++
    command ++ "\" in zone \"".data ++ zone ++ "\"".data

/-- Exact-alias lookup over the mixed-key `VALUE_MAPPINGS` dict: a string
subscript only ever matches the string keys. -/
def argAliasLookup (argument : PyStr) : List (ArgKey × PyStr) → Option PyStr
  | [] => none
  | (.tok s, v) :: rest =>
    if s = argument then some v else argAliasLookup argument rest
  | (.vrange _, _) :: rest => argAliasLookup argument rest

/-- Does `possible_arg` trigger the range branch for `argument`:
`argument.isdigit()` and the key is a `ValueRange` containing `int(argument)`. -/
def rangeHit (argument : PyStr) : ArgKey → Bool
  | .tok _ => false
  | .vrange r => pyIsDigit argument && r.contains (decimalVal argument)

/-- The argument-resolution block of `command_to_iscp` (lines 210–227):
first the exact alias, then the first matching `ValueRange` key (formatting
the argument as two-digit uppercase hex), otherwise `ValueError`.  A missing
`group`/`prefix` level surfaces as the uncaught `KeyError` of the rescan. -/
def resolveArgument (group pfx command zone argument : PyStr) :
    Except PyError PyStr :=
  match alook group VALUE_MAPPINGS with
  | none => .error .keyError
  | some gm =>
    match alook pfx gm with
    | none => .error .keyError
    | some vm =>
      match argAliasLookup argument vm with
      | some v => .ok v
      | none =>
        match vm.find? (fun kv => rangeHit argument kv.1) with
        | some _ => .ok (hexFormat argument)
        | none => .error (.valueError (msgUnknownArgument argument command zone))

/-- The resolution stage of `command_to_iscp` (lines 193–228), applied once
zone, command and argument list have been parsed. -/
def commandToIscpParts (zone command : PyStr) (arguments : List PyStr) :
    Except PyError PyStr :=
  let group := (alook zone ZONE_MAPPINGS).getD zone
  if (alook zone COMMANDS).isNone then
    .error (.valueError (msgUnknownZone zone))
  else
    match alook group COMMAND_MAPPINGS with
    | none => .error .keyError
    | some cm =>
      let pfx := (alook command cm).getD command
      match alook group COMMANDS with
      | none => .error .keyError
      | some zoneTbl =>
        if (alook pfx zoneTbl).isNone then
          .error (.valueError (msgUnknownCommand command zone))
        else
          match arguments.head? with
          | none => .error .indexError
          | some argument =>
            (resolveArgument group pfx command zone argument).map
              (fun v => pfx ++ v)

/-- `command_to_iscp(command)` with `arguments=None, zone=None`: the
free-form parsing stage (lines 163–191) followed by resolution.  With a
`':'`/`'='` separator the string splits into a base part and an argument
list; otherwise the whole string is split on space/dot, where `>= 3` tokens
bind zone and command to the first two and — as written in the source —
`arguments = parts[3:]`. -/
def commandToIscp (command : PyStr) : Except PyError PyStr :=
  if ':' ∈ command ∨ '=' ∈ command then
    match pySplitFirst [':', '='] command with
    | none => .error .assertionError
    | some (base, argpart) =>
      let parts := (pySplit ['.', ' '] base).map norm
      let zc :=
        if parts.length = 2 then (parts.getD 0 [], parts.getD 1 [])
        else ("main".data, parts.getD 0 [])
      let arguments := (pySplit [' ', ','] argpart).map norm
      commandToIscpParts zc.1 zc.2 arguments
  else
    let parts := (pySplit ['.', ' '] command).map norm
    if parts.length ≥ 3 then
      commandToIscpParts (parts.getD 0 []) (parts.getD 1 []) (parts.drop 3)
    else if parts.length = 2 then
      commandToIscpParts ("main".data) (parts.getD 0 []) (parts.drop 1)
    else
      .error (.valueError ("Need at least command and argument".data))

/-! ## iscp_to_command (`core.py` lines 231–250) -/

/-- The decoded value of a wire command: a known token's display name, a
signed integer, or the raw remainder string. -/
inductive CmdValue where
  | vname (s : PyStr)
  | vint (n : Int)
  | vraw (s : PyStr)
  deriving DecidableEq

/-- `[0-9a-f]` with `re.IGNORECASE`. -/
def isHexDigitCI (c : Char) : Bool :=
  c.isDigit || ('a' ≤ c && c ≤ 'f') || ('A' ≤ c && c ≤ 'F')

/-- The `[0-9a-f]*$` tail of the regex: hex digits to the end of the
string, where `$` also matches just before one final `'\n'`. -/
def reHexRun : PyStr → Bool
  | [] => true
  | c :: rest =>
    (isHexDigitCI c && reHexRun rest) || (decide (c = '\n') && decide (rest = []))

/-- The `[0-9a-f]+$` part after a sign: at least one hex digit then `$`. -/
def reSignedHexAfterSign : PyStr → Bool
  | [] => false
  | c1 :: rest2 => isHexDigitCI c1 && reHexRun rest2

/-- `re.match('[+-]?[0-9a-f]+$', args, re.IGNORECASE)` as a Boolean:
optional sign, then at least one hex digit, then `$`.  (A lone sign cannot
fall back to the unsigned alternative, since a sign is not a hex digit.) -/
def reSignedHexMatch (s : PyStr) : Bool :=
  match s with
  | [] => false
  | c0 :: rest =>
    if c0 = '+' ∨ c0 = '-' then reSignedHexAfterSign rest
    else isHexDigitCI c0 && reHexRun rest

/-- Numeric value of a (case-insensitive) hex digit character. -/
def hexDigVal (c : Char) : Nat :=
  if c.isDigit then c.toNat - 48
  else if 'a' ≤ c && c ≤ 'f' then c.toNat - 87
  else c.toNat - 55

/-- Accumulate hex digits into a number. -/
def hexFold (s : PyStr) : Nat :=
  s.foldl (fun acc c => acc * 16 + hexDigVal c) 0

/-- `int(s, 16)` on the shapes the regex admits: surrounding whitespace
(here: at most one trailing `'\n'`) is stripped, an optional sign is
honored, the digits are read in base 16. -/
def pyIntHex (s : PyStr) : Int :=
  match pyStrip s with
  | [] => (hexFold [] : Int)
  | c :: rest =>
    if c = '+' then (hexFold rest : Int)
    else if c = '-' then -(hexFold rest : Int)
    else (hexFold (c :: rest) : Int)

/-- The zone scan of `iscp_to_command`: first zone (in `COMMANDS` order)
whose table contains the first three characters wins; within it, an exact
`values` hit returns the display name, a regex hit returns `int(args, 16)`,
anything else returns the raw remainder.  An exhausted scan is the
`ValueError` of the for-else. -/
def iscpZoneScan (msg : PyStr) :
    List (PyStr × List (PyStr × CommandEntry)) → Except PyError (PyStr × CmdValue)
  | [] =>
    .error (.valueError ("Cannot convert ISCP message to command: ".data ++ msg))
  | (_, zoneCmds) :: rest =>
    let command := msg.take 3
    let args := msg.drop 3
    match alook command zoneCmds with
    | some entry =>
      match alook args entry.values with
      | some v => .ok (entry.name, .vname v.name)
      | none =>
        if reSignedHexMatch args then .ok (entry.name, .vint (pyIntHex args))
        else .ok (entry.name, .vraw args)
    | none => iscpZoneScan msg rest

/-- `iscp_to_command(iscp_message)`. -/
def iscpToCommand (msg : PyStr) : Except PyError (PyStr × CmdValue) :=
  iscpZoneScan msg COMMANDS

/-! ## Spec-side reading of `wire_to_command` (for the refinement claim C4)

These definitions follow the words of the spec (§4.2 `wire_to_command`),
not the source: a remainder that is an optionally-signed hexadecimal
number — an optional sign followed by at least one hex digit — parses to a
signed integer. -/

/-- Following the spec's words: `s` is an optionally-signed hexadecimal
number (optional sign, then one or more hex digits). -/
def isSignedHexNum (s : PyStr) : Bool :=
  match s with
  | [] => false
  | c :: rest =>
    if c = '+' ∨ c = '-' then decide (rest ≠ []) && rest.all isHexDigitCI
    else s.all isHexDigitCI

/-- Following the spec's words: parse an optionally-signed hexadecimal
number as a signed integer. -/
def parseSignedHex : PyStr → Int
  | [] => (hexFold [] : Int)
  | c :: rest =>
    if c = '+' then (hexFold rest : Int)
    else if c = '-' then -(hexFold rest : Int)
    else (hexFold (c :: rest) : Int)

/-- Following the spec's words (§4.2): scan the zone command tables in their
stable order for a 3-character prefix match; on a hit return the known
token's display name, else the signed-hex value, else the raw remainder. -/
def wireToCommandSpecScan (msg : PyStr) :
    List (PyStr × List (PyStr × CommandEntry)) → Except PyError (PyStr × CmdValue)
  | [] =>
    .error (.valueError ("Cannot convert ISCP message to command: ".data ++ msg))
  | (_, zoneCmds) :: rest =>
    match alook (msg.take 3) zoneCmds with
    | some entry =>
      match alook (msg.drop 3) entry.values with
      | some v => .ok (entry.name, .vname v.name)
      | none =>
        if isSignedHexNum (msg.drop 3) then
          .ok (entry.name, .vint (parseSignedHex (msg.drop 3)))
        else .ok (entry.name, .vraw (msg.drop 3))
    | none => wireToCommandSpecScan msg rest

/-- The spec-side `wire_to_command`. -/
def wireToCommandSpec (msg : PyStr) : Except PyError (PyStr × CmdValue) :=
  wireToCommandSpecScan msg COMMANDS

/-! ## filter_for_message (`core.py` lines 253–270)

The transport and the clock are modelled as a trace: one entry per loop
iteration, holding what `getter_func(0.05)` returned and the elapsed time
`time.time() - start` (in seconds) observed at that iteration's deadline
check.  `none` (trace exhausted while the loop would keep polling) is
distinguished from the loop's own outcomes. -/

/-- The match test of the loop: `candidate and candidate[:3] == msg[:3]`
(an empty string is falsy, so it never matches). -/
def candMatches (msg : PyStr) : Option PyStr → Bool
  | some c => decide (c ≠ []) && decide (c.take 3 = msg.take 3)
  | none => false

/-- The message of the timeout `ValueError`. -/
def timeoutError : PyError :=
  .valueError ("Timeout waiting for response.".data)

/-- `filter_for_message(getter_func, msg)` over a finite trace: return the
first matching candidate, raise the timeout `ValueError` once the elapsed
time exceeds 5.0 seconds, keep polling otherwise. -/
def filterForMessage (msg : PyStr) :
    List (Option PyStr × ℚ) → Option (Except PyError PyStr)
  | [] => none
  | (cand, now) :: rest =>
    match cand with
    | some c =>
      if c ≠ [] ∧ c.take 3 = msg.take 3 then some (.ok c)
      else if now > 5 then some (.error timeoutError)
      else filterForMessage msg rest
    | none =>
      if now > 5 then some (.error timeoutError)
      else filterForMessage msg rest

/-! ## parse_info and eISCP.discover (`core.py` lines 273–348)

Only the pure response-processing core of `discover` is modelled: the
socket loop delivers a list of `(datagram bytes, source address)` pairs,
and the body parses each and stores the receiver handle in a dict keyed
by the device identifier. -/

/-- The named groups of the `parse_info` pattern. -/
structure DiscoverInfo where
  device_category : PyStr
  model_name : PyStr
  iscp_port : PyStr
  area_code : PyStr
  identifier : PyStr
  deriving DecidableEq

/-- `\w` (ASCII scope — the discovery grammar is ASCII). -/
def isWordChar (c : Char) : Bool :=
  c.isAlphanum || c = '_'

/-- The `re.match` of `parse_info` on the stripped payload:
`!<digit>ECN<model "[^/]*">/<5-digit port>/<2 word chars>/<identifier ".{0,12}" greedy>`.
`re.match` only anchors at the start, so trailing unmatched characters are
allowed. -/
def parseInfoPayload (s : PyStr) : Option DiscoverInfo :=
  match s with
  | '!' :: d :: 'E' :: 'C' :: 'N' :: rest =>
    if d.isDigit then
      let modelName := rest.takeWhile (· ≠ '/')
      match rest.drop modelName.length with
      | '/' :: r2 =>
        let port := r2.take 5
        if port.length = 5 ∧ port.all Char.isDigit then
          match r2.drop 5 with
          | '/' :: r3 =>
            let area := r3.take 2
            if area.length = 2 ∧ area.all isWordChar then
              match r3.drop 2 with
              | '/' :: r4 =>
                some ⟨[d], modelName, port, area, (r4.takeWhile (· ≠ '\n')).take 12⟩
              | _ => none
            else none
          | _ => none
        else none
      | _ => none
    else none
  | _ => none

/-- `parse_info(data)`: unframe the eISCP packet (a failed assertion there
is an `AssertionError`), strip the payload, and match the response grammar
(`None.groupdict()` on a failed match is an `AttributeError`). -/
def parseInfo (data : List Nat) : Except PyError DiscoverInfo :=
  match packetParse data with
  | none => .error .assertionError
  | some payload =>
    match parseInfoPayload (pyStrip payload) with
    | none => .error .attributeError
    | some info => .ok info

/-- The receiver handle `discover` builds per response: source host, the
port parsed from the response, and the parsed info. -/
structure FoundReceiver where
  host : PyStr
  port : Nat
  info : DiscoverInfo
  deriving DecidableEq

/-- Python-dict assignment `d[k] = v`: replace in place (keeping the key's
position) or append a fresh key. -/
def dictInsert {α : Type} (k : PyStr) (v : α) :
    List (PyStr × α) → List (PyStr × α)
  | [] => [(k, v)]
  | (k', v') :: rest =>
    if k' = k then (k, v) :: rest else (k', v') :: dictInsert k v rest

/-- The response-processing loop of `discover`:
`found_receivers[info["identifier"]] = receiver` for each datagram, a parse
failure propagating out of the loop. -/
def discoverLoop :
    List (List Nat × PyStr) → List (PyStr × FoundReceiver) →
      Except PyError (List (PyStr × FoundReceiver))
  | [], acc => .ok acc
  | (data, addr) :: rest, acc =>
    match parseInfo data with
    | .error e => .error e
    | .ok info =>
      discoverLoop rest
        (dictInsert info.identifier ⟨addr, decimalVal info.iscp_port, info⟩ acc)

/-- The identifier-keyed dict `discover` accumulates. -/
def discoverDict (responses : List (List Nat × PyStr)) :
    Except PyError (List (PyStr × FoundReceiver)) :=
  discoverLoop responses []

/-- `list(found_receivers.values())` — what `discover` returns. -/
def discoverModel (responses : List (List Nat × PyStr)) :
    Except PyError (List FoundReceiver) :=
  (discoverDict responses).map (List.map Prod.snd)

/-! ## Receiver.get (`core.py` lines 531–535) -/

/-- The successfully parsed `(identifier, receiver)` pairs of a response
list, in arrival order — the insertion stream feeding the discovery dict. -/
def parsedHandles (rs : List (List Nat × PyStr)) : List (PyStr × FoundReceiver) :=
  rs.filterMap (fun p =>
    match parseInfo p.1 with
    | .ok info => some (info.identifier, ⟨p.2, decimalVal info.iscp_port, info⟩)
    | .error _ => none)

/-- The handle of the last response carrying identifier `k`, if any —
the value "last-seen wins" predicts for key `k`. -/
def lastWins (k : PyStr) (l : List (PyStr × FoundReceiver)) : Option FoundReceiver :=
  ((l.filter (fun p => decide (p.1 = k))).getLast?).map Prod.snd

/-- A discovery response datagram as a device would send it, and a second
one differing only in its framing details — both carrying the same
identifier `0009B04562F1`. -/
def discoveryDatagram1 : List Nat :=
  (eISCPPacketRaw ("!1ECNTX-NR609/60128/DX/0009B04562F1\r\n".data)).getD []

/-- A second discovery response with the same identifier. -/
def discoveryDatagram2 : List Nat :=
  (eISCPPacketRaw ("!1ECNTX-NR609/60128/DX/0009B04562F1\n".data)).getD []

/-- The spec's de-duplication scenario: the same device answering from two
source addresses. -/
def discoveryResponsesW : List (List Nat × PyStr) :=
  [(discoveryDatagram1, "10.0.0.5".data), (discoveryDatagram2, "10.0.1.7".data)]

/-- `Receiver.get(self, *a, **kw)`: unconditionally
`raise NotImplementedError()`. -/
def receiverGet (a : List PyStr) (kw : List (PyStr × PyStr)) :
    Except PyError PyStr :=
  .error .notImplementedError

/-! # Theorems -/

/-- C9: on the asynchronous wrapper, the inherited `get` operation never
returns a message — it raises `NotImplementedError` for every input;
messages can thus only surface through the `on_message` callback or the
result slot of `raw`, the two delivery paths of the worker loop. -/
theorem receiverGet_never_returns :
    ∀ (a : List PyStr) (kw : List (PyStr × PyStr)),
      receiverGet a kw = .error .notImplementedError ∧
      ∀ m, receiverGet a kw ≠ .ok m := by
  intro a kw
  exact ⟨rfl, fun m h => by simp [receiverGet] at h⟩

/-- C5: the `standby` and `off` argument aliases of `main.system-power`
both resolve to the wire value token `00`, so both free-form commands
translate to the identical wire command `PWR00`. -/
theorem commandToIscp_power_aliases :
    commandToIscp ("main.system-power=standby".data) = .ok ("PWR00".data) ∧
    commandToIscp ("main.system-power=off".data) = .ok ("PWR00".data) := by
  exact ⟨by decide, by decide⟩

/-- C2 (the code at the failing input): the free-form parser binds
`arguments = parts[3:]`, dropping the third token.  The docstring's own
example `'zone2 volume 66'` therefore reaches `arguments[0]` with an empty
list and dies with `IndexError`, and with four tokens the honored argument
is the fourth token (`66`), not the third (`55`). -/
theorem commandToIscp_three_token_freeform_bug :
    commandToIscp ("zone2 volume 66".data) = .error .indexError ∧
    commandToIscp ("zone2 volume 55 66".data) = .ok ("ZVL42".data) := by
  exact ⟨by decide, by decide⟩

/-- C3 (counterexample): an unknown zone, an unknown command and a response
timeout do not each fail with their own specific error kind — all of them
are instances of the one generic `ValueError` class. -/
theorem translation_errors_share_class :
    errClass (commandToIscp ("nozone.system-power=on".data)) = some .valueError ∧
    errClass (commandToIscp ("main.frobnicate=on".data)) = some .valueError ∧
    errClass (commandToIscp ("nozone.system-power=on".data)) =
      errClass (commandToIscp ("main.frobnicate=on".data)) ∧
    timeoutError.cls = .valueError := by
  exact ⟨by decide, by decide, by decide, by decide⟩

/-- C3 (amended): each translation failure raises the generic `ValueError`;
the four failure modes are distinguished only by their message strings,
which are pairwise distinct for any fixed inputs. -/
theorem translation_errors_are_valueErrors :
    commandToIscp ("nozone.system-power=on".data) =
      .error (.valueError (msgUnknownZone ("nozone".data))) ∧
    commandToIscp ("main.frobnicate=on".data) =
      .error (.valueError (msgUnknownCommand ("frobnicate".data) ("main".data))) ∧
    commandToIscp ("main.system-power=maybe".data) =
      .error (.valueError
        (msgUnknownArgument ("maybe".data) ("system-power".data) ("main".data))) ∧
    iscpToCommand ("XYZ01".data) =
      .error (.valueError
        ("Cannot convert ISCP message to command: XYZ01".data)) ∧
    [msgUnknownZone ("nozone".data),
     msgUnknownCommand ("frobnicate".data) ("main".data),
     msgUnknownArgument ("maybe".data) ("system-power".data) ("main".data),
     "Cannot convert ISCP message to command: XYZ01".data].Nodup := by
  exact ⟨by decide, by decide, by decide, by decide, by decide⟩

/-- `Char.ofNat` and `Char.toNat` cancel below the surrogate range. -/
theorem char_toNat_ofNat (n : Nat) (h : n < 55296) :
    (Char.ofNat n).toNat = n := by
  unfold Char.ofNat
  rw [dif_pos (Or.inl h)]
  simp [Char.ofNatAux, Char.toNat, UInt32.toNat]

/-- A decoded multi-byte sequence consumes at least two bytes. -/
theorem utf8StepMulti_shrinks (b0 : Nat) (rest : List Nat) (c : Char)
    (rest' : List Nat) (h : utf8StepMulti b0 rest = some (c, rest')) :
    rest'.length < rest.length := by
  unfold utf8StepMulti at h
  repeat' split at h
  all_goals
    first
      | exact Option.noConfusion h
      | (simp only [Option.some.injEq, Prod.mk.injEq] at h
         rw [← h.2]
         simp only [List.length_cons]
         omega)

/-- A successful decoding step is either a one-byte ASCII step or consumes
at least two bytes. -/
theorem utf8Step_cases (b0 : Nat) (rest : List Nat) (c : Char)
    (rest' : List Nat) (h : utf8Step (b0 :: rest) = some (c, rest')) :
    (b0 < 128 ∧ c = Char.ofNat b0 ∧ rest' = rest) ∨
      rest'.length < rest.length := by
  rw [show utf8Step (b0 :: rest) =
      (if b0 < 0x80 then some (Char.ofNat b0, rest)
       else utf8StepMulti b0 rest) from rfl] at h
  by_cases hb : b0 < 128
  · rw [if_pos hb] at h
    simp only [Option.some.injEq, Prod.mk.injEq] at h
    exact Or.inl ⟨hb, h.1.symm, h.2.symm⟩
  · rw [if_neg hb] at h
    exact Or.inr (utf8StepMulti_shrinks _ _ _ _ h)

/-- Successful decoding never produces more characters than input bytes,
and produces exactly as many only when every byte is ASCII — in which case
the bytes are exactly the character codes. -/
theorem decodeUtf8Go_ascii_inv :
    ∀ (fuel : Nat) (bs : List Nat) (cs : PyStr),
      decodeUtf8Go fuel bs = some cs →
      cs.length ≤ bs.length ∧
        (cs.length = bs.length → bs = cs.map Char.toNat)
  | fuel, [], cs, h => by
    have hg : decodeUtf8Go fuel [] = some [] := by cases fuel <;> rfl
    rw [hg] at h
    have hcs : cs = [] := (Option.some.inj h).symm
    subst hcs
    simp
  | 0, _ :: _, cs, h => by simp [decodeUtf8Go] at h
  | fuel + 1, b0 :: rest, cs, h => by
    rw [decodeUtf8Go] at h
    cases hs : utf8Step (b0 :: rest) with
    | none => rw [hs] at h; simp at h
    | some pr =>
      obtain ⟨c, rest'⟩ := pr
      rw [hs] at h
      simp only [Option.some_bind] at h
      cases hg : decodeUtf8Go fuel rest' with
      | none => rw [hg] at h; simp at h
      | some cs' =>
        rw [hg] at h
        simp only [Option.map_some', Option.some.injEq] at h
        subst h
        obtain ⟨hle, heq⟩ := decodeUtf8Go_ascii_inv fuel rest' cs' hg
        rcases utf8Step_cases b0 rest c rest' hs with ⟨hb, hc, hr⟩ | hlt
        · rw [hr] at hle heq
          constructor
          · simp only [List.length_cons]
            omega
          · intro hlen
            simp only [List.length_cons] at hlen
            have hl2 : cs'.length = rest.length := by omega
            rw [List.map_cons, ← heq hl2, hc,
              char_toNat_ofNat b0 (by omega)]
        · constructor
          · simp only [List.length_cons]
            omega
          · intro hlen
            simp only [List.length_cons] at hlen
            omega

/-- Only the literal bytes `b'ISCP'` decode to the string `ISCP`. -/
theorem decodeUtf8_iscp (m0 m1 m2 m3 : Nat)
    (h : decodeUtf8 [m0, m1, m2, m3] = some ['I', 'S', 'C', 'P']) :
    [m0, m1, m2, m3] = MAGIC := by
  obtain ⟨hle, heq⟩ :=
    decodeUtf8Go_ascii_inv 4 [m0, m1, m2, m3] ['I', 'S', 'C', 'P'] h
  exact (heq rfl).trans (by decide)

/-- C8 (counterexample): a 16-byte input whose magic is exactly `ISCP` and
whose declared header size is exactly 16 on which `parse_header`
nevertheless fails — its reserved bytes are not decodable as UTF-8, and
the parser decodes them before the checks. -/
theorem parseHeader_reserved_counterexample :
    parseHeader
        [73, 83, 67, 80, 0, 0, 0, 16, 0, 0, 0, 0, 1, 255, 255, 255] = none ∧
    [73, 83, 67, 80] = MAGIC ∧ deU32 0 0 0 16 = 16 := by
  exact ⟨by decide, by decide, by decide⟩

/-- C8 (amended): for every 16-byte input, `parse_header` fails exactly
when the 4-byte magic differs from `ISCP`, the declared header size is not
16, or the three reserved bytes are not valid UTF-8 (their decoding
precedes the assertions); on success it returns the header with the
declared payload size, the version byte read as a signed integer, header
size 16 and magic `ISCP`. -/
theorem parseHeader_characterization
    (b0 b1 b2 b3 b4 b5 b6 b7 b8 b9 b10 b11 b12 b13 b14 b15 : Nat) :
    (parseHeader [b0, b1, b2, b3, b4, b5, b6, b7, b8, b9, b10, b11, b12,
        b13, b14, b15] = none ↔
      ([b0, b1, b2, b3] ≠ MAGIC ∨ deU32 b4 b5 b6 b7 ≠ 16 ∨
        decodeUtf8 [b13, b14, b15] = none)) ∧
    (∀ hd, parseHeader [b0, b1, b2, b3, b4, b5, b6, b7, b8, b9, b10, b11,
        b12, b13, b14, b15] = some hd →
      hd.header_size = 16 ∧ hd.data_size = deU32 b8 b9 b10 b11 ∧
        hd.version = sByte b12 ∧ hd.magic = ['I', 'S', 'C', 'P']) := by
  rw [show parseHeader [b0, b1, b2, b3, b4, b5, b6, b7, b8, b9, b10, b11,
      b12, b13, b14, b15] =
    ((decodeUtf8 [b0, b1, b2, b3]).bind (fun magicS =>
      (decodeUtf8 [b13, b14, b15]).bind (fun reservedS =>
        if magicS = ['I', 'S', 'C', 'P'] ∧ deU32 b4 b5 b6 b7 = 16 then
          some ⟨magicS, deU32 b4 b5 b6 b7, deU32 b8 b9 b10 b11, sByte b12,
            reservedS⟩
        else none))) from rfl]
  cases hm : decodeUtf8 [b0, b1, b2, b3] with
  | none =>
    simp only [Option.none_bind]
    refine ⟨⟨fun _ => Or.inl fun hmag => ?_, fun _ => by trivial⟩,
      fun hd hhd => by simp at hhd⟩
    rw [hmag] at hm
    exact absurd hm (by decide)
  | some s =>
    simp only [Option.some_bind]
    cases hr : decodeUtf8 [b13, b14, b15] with
    | none =>
      simp only [Option.none_bind]
      exact ⟨⟨fun _ => Or.inr (Or.inr (by trivial)), fun _ => by trivial⟩,
        fun hd hhd => by simp at hhd⟩
    | some rs =>
      simp only [Option.some_bind]
      by_cases hcond : s = ['I', 'S', 'C', 'P'] ∧ deU32 b4 b5 b6 b7 = 16
      · have hmag : [b0, b1, b2, b3] = MAGIC := by
          apply decodeUtf8_iscp
          rw [hm, hcond.1]
        rw [if_pos hcond]
        refine ⟨⟨fun hno => by simp at hno, fun hrhs => ?_⟩, fun hd hhd => ?_⟩
        · rcases hrhs with hmag' | hd16 | hres
          · exact absurd hmag hmag'
          · exact absurd hcond.2 hd16
          · exact absurd hres (by simp)
        · simp only [Option.some.injEq] at hhd
          rw [← hhd, hcond.1]
          exact ⟨hcond.2, rfl, rfl, rfl⟩
      · rw [if_neg hcond]
        refine ⟨⟨fun _ => ?_, fun _ => by trivial⟩, fun hd hhd => by simp at hhd⟩
        by_cases hd16 : deU32 b4 b5 b6 b7 = 16
        · refine Or.inl fun hmag => ?_
          rw [hmag] at hm
          have hs' : s = ['I', 'S', 'C', 'P'] := by
            have hdm : decodeUtf8 MAGIC = some ['I', 'S', 'C', 'P'] := by decide
            rw [hdm] at hm
            simpa using hm.symm
          exact hcond ⟨hs', hd16⟩
        · exact Or.inr (Or.inl hd16)

/-- C8 (witness): a well-formed concrete header parses to the declared
payload size 5 and version 1, and the characterization's success clause
yields its fields. -/
theorem parseHeader_characterization_witness :
    parseHeader [73, 83, 67, 80, 0, 0, 0, 16, 0, 0, 0, 5, 1, 0, 0, 0] =
      some ⟨['I', 'S', 'C', 'P'], 16, 5, 1,
        [Char.ofNat 0, Char.ofNat 0, Char.ofNat 0]⟩ ∧
    (⟨['I', 'S', 'C', 'P'], 16, 5, 1,
        [Char.ofNat 0, Char.ofNat 0, Char.ofNat 0]⟩ : Header).header_size
        = 16 ∧
    (⟨['I', 'S', 'C', 'P'], 16, 5, 1,
        [Char.ofNat 0, Char.ofNat 0, Char.ofNat 0]⟩ : Header).data_size
        = deU32 0 0 0 5 ∧
    (⟨['I', 'S', 'C', 'P'], 16, 5, 1,
        [Char.ofNat 0, Char.ofNat 0, Char.ofNat 0]⟩ : Header).version
        = sByte 1 ∧
    (⟨['I', 'S', 'C', 'P'], 16, 5, 1,
        [Char.ofNat 0, Char.ofNat 0, Char.ofNat 0]⟩ : Header).magic
        = ['I', 'S', 'C', 'P'] := by
  have hp : parseHeader [73, 83, 67, 80, 0, 0, 0, 16, 0, 0, 0, 5, 1, 0, 0, 0] =
      some ⟨['I', 'S', 'C', 'P'], 16, 5, 1,
        [Char.ofNat 0, Char.ofNat 0, Char.ofNat 0]⟩ := by decide
  refine ⟨hp, ?_⟩
  exact (parseHeader_characterization
    73 83 67 80 0 0 0 16 0 0 0 5 1 0 0 0).2 _ hp

/-- C10: `ValueRange` membership includes both endpoints — for
`start ≤ end`, an integer is contained exactly when `start ≤ v ≤ end` —
and consequently `command_to_iscp` accepts the all-digit arguments equal
to the endpoints of the modelled `master-volume` range `0..100`, hex
formatting them. -/
theorem valueRange_membership_inclusive (a b v : ℤ) (hab : a ≤ b) :
    ((ValueRange.mk' a b).contains v = true ↔ a ≤ v ∧ v ≤ b) ∧
    commandToIscp ("main.master-volume=0".data) = .ok ("MVL00".data) ∧
    commandToIscp ("main.master-volume=100".data) = .ok ("MVL64".data) := by
  refine ⟨?_, by decide, by decide⟩
  unfold ValueRange.contains ValueRange.mk' pyRange
  rw [List.elem_iff, List.mem_map]
  constructor
  · rintro ⟨i, hi, rfl⟩
    rw [List.mem_range] at hi
    omega
  · intro hv
    refine ⟨(v - a).toNat, ?_, ?_⟩
    · rw [List.mem_range]; omega
    · show a + ((v - a).toNat : Int) = v
      omega

/-- ASCII code points encode to themselves as single UTF-8 bytes. -/
theorem utf8Encode_ascii :
    ∀ s : PyStr, (∀ ch ∈ s, ch.toNat < 128) →
      utf8Encode s = s.map Char.toNat
  | [], _ => rfl
  | c :: cs, h => by
    have hc : c.toNat < 128 := h c (List.mem_cons_self _ _)
    have ih := utf8Encode_ascii cs (fun x hx => h x (List.mem_cons_of_mem _ hx))
    simp only [utf8Encode, List.flatMap_cons] at ih ⊢
    rw [show utf8EncodeChar c.toNat = [c.toNat] from by
      simp [utf8EncodeChar, hc], ih]
    simp

/-- One decoding step on an ASCII lead byte. -/
theorem decodeUtf8_cons_lo (b0 : Nat) (rest : List Nat) (h : b0 < 128) :
    decodeUtf8 (b0 :: rest) =
      (decodeUtf8 rest).map (fun cs => Char.ofNat b0 :: cs) := by
  show decodeUtf8Go (rest.length + 1) (b0 :: rest) = _
  rw [decodeUtf8Go]
  rw [show utf8Step (b0 :: rest) = some (Char.ofNat b0, rest) from by
    show (if b0 < 0x80 then some (Char.ofNat b0, rest)
      else utf8StepMulti b0 rest) = some (Char.ofNat b0, rest)
    rw [if_pos h]]
  rfl

/-- Decoding the byte image of an ASCII string recovers the string. -/
theorem decodeUtf8_ascii (s : PyStr) (h : ∀ ch ∈ s, ch.toNat < 128) :
    decodeUtf8 (s.map Char.toNat) = some s := by
  induction s with
  | nil => rfl
  | cons c cs ih =>
    have hc : c.toNat < 128 := h c (List.mem_cons_self _ _)
    rw [List.map_cons, decodeUtf8_cons_lo _ _ hc,
      ih (fun x hx => h x (List.mem_cons_of_mem _ hx))]
    simp [Char.ofNat_toNat]

/-- Reading back the four big-endian bytes of a 32-bit length. -/
theorem deU32_u32be (n : Nat) (h : n < 2 ^ 32) :
    deU32 (n / 2 ^ 24 % 256) (n / 2 ^ 16 % 256) (n / 2 ^ 8 % 256) (n % 256) = n := by
  unfold deU32
  omega

/-- `take 16` of an explicit 16-byte prefix. -/
theorem take16_cons (x0 x1 x2 x3 x4 x5 x6 x7 x8 x9 x10 x11 x12 x13 x14 x15 : Nat)
    (t : List Nat) :
    (x0 :: x1 :: x2 :: x3 :: x4 :: x5 :: x6 :: x7 :: x8 :: x9 :: x10 :: x11 ::
      x12 :: x13 :: x14 :: x15 :: t).take 16 =
      [x0, x1, x2, x3, x4, x5, x6, x7, x8, x9, x10, x11, x12, x13, x14, x15] := rfl

/-- `drop 16` of an explicit 16-byte prefix. -/
theorem drop16_cons (x0 x1 x2 x3 x4 x5 x6 x7 x8 x9 x10 x11 x12 x13 x14 x15 : Nat)
    (t : List Nat) :
    (x0 :: x1 :: x2 :: x3 :: x4 :: x5 :: x6 :: x7 :: x8 :: x9 :: x10 :: x11 ::
      x12 :: x13 :: x14 :: x15 :: t).drop 16 = t := rfl

/-- Framing an ASCII message and parsing the frame back recovers the
message exactly: the header parses, the declared size matches, the payload
decodes. -/
theorem packetParse_eISCPPacketRaw (msg : PyStr)
    (ha : ∀ ch ∈ msg, ch.toNat < 128) (hl : msg.length < 2 ^ 32) :
    (eISCPPacketRaw msg).bind packetParse = some msg := by
  rw [eISCPPacketRaw, if_pos hl, Option.some_bind]
  rw [utf8Encode_ascii msg ha]
  rw [show u32be 16 = [0, 0, 0, 16] from rfl]
  simp only [MAGIC, u32be, List.cons_append, List.nil_append]
  unfold packetParse
  rw [take16_cons]
  rw [show parseHeader
        [73, 83, 67, 80, 0, 0, 0, 16,
          msg.length / 2 ^ 24 % 256, msg.length / 2 ^ 16 % 256,
          msg.length / 2 ^ 8 % 256, msg.length % 256, 1, 0, 0, 0] =
      some ⟨['I', 'S', 'C', 'P'], 16,
        deU32 (msg.length / 2 ^ 24 % 256) (msg.length / 2 ^ 16 % 256)
          (msg.length / 2 ^ 8 % 256) (msg.length % 256), 1,
        [Char.ofNat 0, Char.ofNat 0, Char.ofNat 0]⟩ from rfl]
  rw [deU32_u32be msg.length hl]
  simp only [drop16_cons]
  rw [show msg.length = (msg.map Char.toNat).length from (List.length_map _ _).symm,
    List.take_length, decodeUtf8_ascii msg ha]
  simp

/-- Parsing an ISCP message whose body ends with the EOF sentinel strips
the `'!1'` preamble, the trailing CR and the sentinel. -/
theorem iscpMessageParse_eof (c : PyStr) :
    iscpMessageParse (iscpMessageStr (c ++ [EOFCHAR])) = some c := by
  have hshape : iscpMessageStr (c ++ [EOFCHAR]) =
      '!' :: '1' :: (c ++ [EOFCHAR, '\r']) := by
    simp [iscpMessageStr]
  rw [hshape]
  have hrev : ('!' :: '1' :: (c ++ [EOFCHAR, '\r'])).reverse
      = '\r' :: EOFCHAR :: (c.reverse ++ ['1', '!']) := by
    simp
  simp only [iscpMessageParse]
  rw [hrev]
  show some ((('!' :: '1' :: (c ++ [EOFCHAR, '\r'])).take
      (('!' :: '1' :: (c ++ [EOFCHAR, '\r'])).length - 2)).drop 2) = some c
  have hlen : ('!' :: '1' :: (c ++ [EOFCHAR, '\r'])).length - 2 =
      c.length + 2 := by simp
  rw [hlen]
  have htake : ('!' :: '1' :: (c ++ [EOFCHAR, '\r'])).take (c.length + 2) =
      '!' :: '1' :: c := by
    rw [show c.length + 2 = c.length + 1 + 1 from rfl]
    rw [List.take_succ_cons, List.take_succ_cons, List.take_left' rfl]
  rw [htake]
  rfl

/-- C1 (counterexample): the claimed round-trip fails on the ordinary wire
command `PWR01` — `encode` terminates the message with a bare CR, while
`parse_message` insists on an EOF sentinel `'\x1a'` before the terminator,
so the decode chain rejects its own encoder's output. -/
theorem roundTrip_PWR01_fails :
    roundTrip ("PWR01".data) = none := by decide

/-- C1 (amended): the encode/decode chain is a round trip only up to the
EOF sentinel: for every ASCII wire command `c` (of framable length),
encoding `c` with the sentinel `'\x1a'` appended and running header decode,
payload decode and `parse_message` recovers exactly `c`; without the
sentinel the chain rejects the message (see the counterexample). -/
theorem roundTrip_with_eof_sentinel (c : PyStr)
    (hascii : ∀ ch ∈ c, ch.toNat < 128) (hlen : c.length + 4 < 2 ^ 32) :
    roundTrip (c ++ [EOFCHAR]) = some c := by
  have hmsgascii : ∀ ch ∈ iscpMessageStr (c ++ [EOFCHAR]), ch.toNat < 128 := by
    intro ch hch
    rw [show iscpMessageStr (c ++ [EOFCHAR]) =
        '!' :: '1' :: (c ++ [EOFCHAR, '\r']) from by simp [iscpMessageStr]] at hch
    rcases List.mem_cons.mp hch with h | hch
    · rw [h]; decide
    rcases List.mem_cons.mp hch with h | hch
    · rw [h]; decide
    rcases List.mem_append.mp hch with hc | hch
    · exact hascii ch hc
    rcases List.mem_cons.mp hch with h | hch
    · rw [h]; decide
    rcases List.mem_cons.mp hch with h | hch
    · rw [h]; decide
    exact absurd hch (List.not_mem_nil ch)
  have hmsglen : (iscpMessageStr (c ++ [EOFCHAR])).length = c.length + 4 := by
    simp [iscpMessageStr]
  unfold roundTrip commandToPacket
  have hp := packetParse_eISCPPacketRaw (iscpMessageStr (c ++ [EOFCHAR]))
    hmsgascii (by rw [hmsglen]; exact hlen)
  cases hb : eISCPPacketRaw (iscpMessageStr (c ++ [EOFCHAR])) with
  | none => rw [hb] at hp; simp at hp
  | some bs =>
    rw [hb, Option.some_bind] at hp
    rw [Option.some_bind]
    unfold fullDecode
    rw [hp, Option.some_bind]
    exact iscpMessageParse_eof c

/-- C1 (witness): the sentinel-completed round trip at the concrete command
`PWR01`. -/
theorem roundTrip_with_eof_sentinel_witness :
    roundTrip (("PWR01").data ++ [EOFCHAR]) = some (("PWR01").data) :=
  roundTrip_with_eof_sentinel (("PWR01").data) (by decide) (by decide)

/-- A hex digit (either case) is not Python whitespace. -/
theorem isHexDigitCI_not_ws (c : Char) (h : isHexDigitCI c = true) :
    ¬ c ∈ pyWhitespace := by
  intro hw
  simp only [pyWhitespace, List.mem_cons, List.not_mem_nil, or_false] at hw
  rcases hw with rfl | rfl | rfl | rfl | rfl | rfl | rfl | rfl | rfl | rfl | rfl <;>
    exact absurd h (by decide)

/-- `dropWhile` on whitespace is the identity on whitespace-free strings. -/
theorem dropWhile_ws_eq_self (s : PyStr) (h : ∀ c ∈ s, ¬ c ∈ pyWhitespace) :
    s.dropWhile (· ∈ pyWhitespace) = s := by
  cases s with
  | nil => rfl
  | cons c rest =>
    rw [List.dropWhile_cons,
      if_neg (by simpa using h c (List.mem_cons_self c rest))]

/-- `strip()` is the identity on whitespace-free strings. -/
theorem pyStrip_eq_self (s : PyStr) (h : ∀ c ∈ s, ¬ c ∈ pyWhitespace) :
    pyStrip s = s := by
  unfold pyStrip
  rw [dropWhile_ws_eq_self s h,
    dropWhile_ws_eq_self s.reverse (fun c hc => h c (List.mem_reverse.mp hc)),
    List.reverse_reverse]

/-- Without a trailing newline, the regex tail is just "all hex digits". -/
theorem reHexRun_no_newline (s : PyStr) (h : '\n' ∉ s) :
    reHexRun s = s.all isHexDigitCI := by
  induction s with
  | nil => rfl
  | cons c rest ih =>
    have hc : ¬ c = '\n' := fun he => h (he ▸ List.mem_cons_self c rest)
    rw [reHexRun, ih (fun hm => h (List.mem_cons_of_mem _ hm))]
    simp [hc]

/-- On newline-free remainders, the source regex and the spec's
"optionally-signed hexadecimal number" agree. -/
theorem reSignedHexMatch_no_newline (s : PyStr) (h : '\n' ∉ s) :
    reSignedHexMatch s = isSignedHexNum s := by
  cases s with
  | nil => rfl
  | cons c0 rest =>
    have hrest : '\n' ∉ rest := fun hm => h (List.mem_cons_of_mem _ hm)
    show (if c0 = '+' ∨ c0 = '-' then reSignedHexAfterSign rest
      else isHexDigitCI c0 && reHexRun rest) =
      (if c0 = '+' ∨ c0 = '-' then
        decide (rest ≠ []) && rest.all isHexDigitCI
      else (c0 :: rest).all isHexDigitCI)
    by_cases hs : c0 = '+' ∨ c0 = '-'
    · rw [if_pos hs, if_pos hs]
      cases rest with
      | nil => rfl
      | cons c1 rest2 =>
        show (isHexDigitCI c1 && reHexRun rest2) = _
        rw [reHexRun_no_newline rest2
          (fun hm => hrest (List.mem_cons_of_mem _ hm))]
        simp
    · rw [if_neg hs, if_neg hs, reHexRun_no_newline rest hrest]
      simp

/-- On newline-free regex-matched remainders, `int(s, 16)` and the spec's
signed-hex parser agree. -/
theorem pyIntHex_eq_parseSignedHex (s : PyStr)
    (hm : reSignedHexMatch s = true) (h : '\n' ∉ s) :
    pyIntHex s = parseSignedHex s := by
  rw [reSignedHexMatch_no_newline s h] at hm
  have hall : ∀ c ∈ s, ¬ c ∈ pyWhitespace := by
    cases s with
    | nil => intro c hc; exact absurd hc (List.not_mem_nil c)
    | cons c0 rest =>
      intro c hc
      rw [show isSignedHexNum (c0 :: rest) =
          (if c0 = '+' ∨ c0 = '-' then
            decide (rest ≠ []) && rest.all isHexDigitCI
          else (c0 :: rest).all isHexDigitCI) from rfl] at hm
      by_cases hs : c0 = '+' ∨ c0 = '-'
      · rw [if_pos hs] at hm
        rw [Bool.and_eq_true] at hm
        have hrest := hm.2
        rcases List.mem_cons.mp hc with rfl | hcr
        · rcases hs with rfl | rfl <;> decide
        · exact isHexDigitCI_not_ws c (List.all_eq_true.mp hrest c hcr)
      · rw [if_neg hs] at hm
        exact isHexDigitCI_not_ws c (List.all_eq_true.mp hm c hc)
  unfold pyIntHex
  rw [pyStrip_eq_self s hall]
  cases s with
  | nil => rfl
  | cons c0 rest => rfl

/-- The zone scans of the source translator and of the spec's reading agree
on newline-free wire messages, table by table. -/
theorem zoneScan_eq_spec :
    ∀ (zs : List (PyStr × List (PyStr × CommandEntry))) (msg : PyStr),
      '\n' ∉ msg →
      iscpZoneScan msg zs = wireToCommandSpecScan msg zs
  | [], _, _ => rfl
  | (z, tbl) :: rest, msg, h => by
    have hdrop : '\n' ∉ msg.drop 3 := fun hm => h (List.mem_of_mem_drop hm)
    rw [iscpZoneScan, wireToCommandSpecScan]
    cases halk : alook (msg.take 3) tbl with
    | none =>
      simp only [halk]
      exact zoneScan_eq_spec rest msg h
    | some entry =>
      simp only [halk]
      cases hv : alook (msg.drop 3) entry.values with
      | some v => simp only [hv]
      | none =>
        simp only [hv]
        rw [reSignedHexMatch_no_newline _ hdrop]
        by_cases hsh : isSignedHexNum (msg.drop 3) = true
        · rw [if_pos hsh, if_pos hsh,
            pyIntHex_eq_parseSignedHex (msg.drop 3)
              (by rw [reSignedHexMatch_no_newline _ hdrop]; exact hsh) hdrop]
        · rw [if_neg hsh, if_neg hsh]

/-- C4: on every newline-free wire message (every real wire command — the
protocol's commands are CR/LF-free), `iscp_to_command` behaves exactly as
the spec describes: it scans the zone tables in their stable order for a
match on the first three characters; on a hit, a known value token yields
that token's display name, an optionally-signed hexadecimal remainder
yields the remainder parsed as a signed integer, anything else yields the
raw remainder; an unmatched prefix fails. -/
theorem iscpToCommand_matches_spec (msg : PyStr) (h : '\n' ∉ msg) :
    iscpToCommand msg = wireToCommandSpec msg :=
  zoneScan_eq_spec COMMANDS msg h

/-- C4 (witness): the correspondence at the concrete message `MVL1f`, whose
remainder is not a known token and parses as the signed hex number 31. -/
theorem iscpToCommand_matches_spec_witness :
    iscpToCommand ("MVL1f".data) = wireToCommandSpec ("MVL1f".data) ∧
    iscpToCommand ("MVL1f".data) =
      .ok ("master-volume".data, .vint 31) :=
  ⟨iscpToCommand_matches_spec ("MVL1f".data) (by decide), by decide⟩

/-- C6: whenever the response filter returns a message, that message is
truthy, its leading three characters match the sent command's, and it is
the first matching candidate of the trace (everything before it failed the
match test and was discarded); and when no candidate of the trace matches
and the elapsed time exceeds the 5-second deadline somewhere in the trace,
the filter fails with the timeout `ValueError`. -/
theorem filterForMessage_first_match_and_timeout :
    ∀ (msg : PyStr) (trace : List (Option PyStr × ℚ)),
      (∀ c, filterForMessage msg trace = some (.ok c) →
        (c ≠ [] ∧ c.take 3 = msg.take 3) ∧
        ∃ t1 q t2, trace = t1 ++ (some c, q) :: t2 ∧
          ∀ e ∈ t1, candMatches msg e.1 = false) ∧
      ((∀ e ∈ trace, candMatches msg e.1 = false) →
        (∃ e ∈ trace, e.2 > 5) →
        filterForMessage msg trace = some (.error timeoutError)) := by
  intro msg trace
  induction trace with
  | nil =>
    refine ⟨fun c h => ?_, fun _ h2 => ?_⟩
    · simp [filterForMessage] at h
    · simp at h2
  | cons hd tl ih =>
    obtain ⟨cand, now⟩ := hd
    refine ⟨fun c h => ?_, fun hall hex => ?_⟩
    · cases cand with
      | none =>
        rw [show filterForMessage msg ((none, now) :: tl) =
              (if now > 5 then some (.error timeoutError)
               else filterForMessage msg tl) from rfl] at h
        by_cases ht : now > 5
        · rw [if_pos ht] at h
          exact absurd h (by simp)
        · rw [if_neg ht] at h
          obtain ⟨hc, t1, q, t2, heq, hpre⟩ := ih.1 c h
          subst heq
          refine ⟨hc, (none, now) :: t1, q, t2, rfl, ?_⟩
          intro e he
          rcases List.mem_cons.mp he with rfl | he
          · rfl
          · exact hpre e he
      | some s =>
        rw [show filterForMessage msg ((some s, now) :: tl) =
              (if s ≠ [] ∧ s.take 3 = msg.take 3 then some (.ok s)
               else if now > 5 then some (.error timeoutError)
               else filterForMessage msg tl) from rfl] at h
        by_cases hm : s ≠ [] ∧ s.take 3 = msg.take 3
        · rw [if_pos hm] at h
          have hcs : s = c := by simpa using h
          subst hcs
          exact ⟨hm, [], now, tl, rfl, by simp⟩
        · rw [if_neg hm] at h
          by_cases ht : now > 5
          · rw [if_pos ht] at h
            exact absurd h (by simp)
          · rw [if_neg ht] at h
            obtain ⟨hc, t1, q, t2, heq, hpre⟩ := ih.1 c h
            subst heq
            refine ⟨hc, (some s, now) :: t1, q, t2, rfl, ?_⟩
            intro e he
            rcases List.mem_cons.mp he with rfl | he
            · simp only [candMatches, Bool.and_eq_false_iff, decide_eq_false_iff_not]
              tauto
            · exact hpre e he
    · cases cand with
      | none =>
        rw [show filterForMessage msg ((none, now) :: tl) =
              (if now > 5 then some (.error timeoutError)
               else filterForMessage msg tl) from rfl]
        by_cases ht : now > 5
        · rw [if_pos ht]
        · rw [if_neg ht]
          apply ih.2 (fun e he => hall e (List.mem_cons_of_mem _ he))
          rcases hex with ⟨e, he, hgt⟩
          rcases List.mem_cons.mp he with rfl | he
          · exact absurd hgt ht
          · exact ⟨e, he, hgt⟩
      | some s =>
        have hm : ¬(s ≠ [] ∧ s.take 3 = msg.take 3) := by
          have hh := hall (some s, now) (List.mem_cons_self _ _)
          simp only [candMatches, Bool.and_eq_false_iff, decide_eq_false_iff_not] at hh
          tauto
        rw [show filterForMessage msg ((some s, now) :: tl) =
              (if s ≠ [] ∧ s.take 3 = msg.take 3 then some (.ok s)
               else if now > 5 then some (.error timeoutError)
               else filterForMessage msg tl) from rfl, if_neg hm]
        by_cases ht : now > 5
        · rw [if_pos ht]
        · rw [if_neg ht]
          apply ih.2 (fun e he => hall e (List.mem_cons_of_mem _ he))
          rcases hex with ⟨e, he, hgt⟩
          rcases List.mem_cons.mp he with rfl | he
          · exact absurd hgt ht
          · exact ⟨e, he, hgt⟩

/-- C6 (witness): for the spec's scenario — an unrelated `MVL22` delivered
before the matching `PWR00` in response to `PWR01` — the filter returns
exactly the matching message, and the theorem recovers that `MVL22` was
discarded; the timeout half fires on a trace of non-matching messages once
the deadline passes. -/
theorem filterForMessage_first_match_and_timeout_witness :
    ((("PWR00".data : PyStr) ≠ [] ∧
        ("PWR00".data : PyStr).take 3 = ("PWR01".data : PyStr).take 3) ∧
      ∃ t1 q t2,
        [(some ("MVL22".data), (1 : ℚ)), (some ("PWR00".data), (2 : ℚ))] =
          t1 ++ (some ("PWR00".data), q) :: t2 ∧
        ∀ e ∈ t1, candMatches ("PWR01".data) e.1 = false) ∧
    filterForMessage ("PWR01".data)
        [(some ("MVL22".data), (1 : ℚ)), (none, (6 : ℚ))] =
      some (.error timeoutError) := by
  constructor
  · exact (filterForMessage_first_match_and_timeout ("PWR01".data)
      [(some ("MVL22".data), (1 : ℚ)), (some ("PWR00".data), (2 : ℚ))]).1
      ("PWR00".data) (by decide)
  · exact (filterForMessage_first_match_and_timeout ("PWR01".data)
      [(some ("MVL22".data), (1 : ℚ)), (none, (6 : ℚ))]).2
      (by decide) ⟨(none, (6 : ℚ)), by decide, by norm_num⟩

/-- `getLast?` of a cons, through `Option.or`. -/
theorem getLast?_cons_or {α : Type} (a : α) (l : List α) :
    (a :: l).getLast? = (l.getLast?).or (some a) := by
  cases l with
  | nil => rfl
  | cons b t =>
    rw [List.getLast?_cons_cons]
    have h : (b :: t).getLast?.isSome := by
      rw [List.getLast?_isSome]
      simp
    obtain ⟨x, hx⟩ := Option.isSome_iff_exists.mp h
    rw [hx]
    rfl

/-- Lookup after a Python-dict assignment: the assigned key now maps to the
new value, everything else is untouched. -/
theorem alook_dictInsert {α : Type} (k q : PyStr) (v : α) :
    ∀ l : List (PyStr × α),
      alook k (dictInsert q v l) = if q = k then some v else alook k l
  | [] => by simp [dictInsert, alook]
  | (k0, v0) :: tl => by
    by_cases h0 : k0 = q
    · subst h0
      rw [show dictInsert k0 v ((k0, v0) :: tl) = (k0, v) :: tl from by
        simp [dictInsert]]
      by_cases hk : k0 = k <;> simp [alook, hk]
    · rw [show dictInsert q v ((k0, v0) :: tl) = (k0, v0) :: dictInsert q v tl from by
        simp [dictInsert, h0]]
      by_cases hk : k0 = k
      · subst hk
        have hq : ¬ q = k0 := fun h => h0 h.symm
        simp [alook, hq]
      · simp [alook, hk, alook_dictInsert k q v tl]

/-- A Python-dict assignment keeps the key sequence when the key is already
present and appends it otherwise. -/
theorem dictInsert_keys {α : Type} (q : PyStr) (v : α) :
    ∀ l : List (PyStr × α),
      (dictInsert q v l).map Prod.fst =
        if q ∈ l.map Prod.fst then l.map Prod.fst else l.map Prod.fst ++ [q]
  | [] => by simp [dictInsert]
  | (k0, v0) :: tl => by
    by_cases h0 : k0 = q
    · subst h0
      rw [show dictInsert k0 v ((k0, v0) :: tl) = (k0, v) :: tl from by
        simp [dictInsert]]
      rw [if_pos (List.mem_map.mpr ⟨(k0, v0), List.mem_cons_self _ _, rfl⟩)]
      rfl
    · rw [show dictInsert q v ((k0, v0) :: tl) = (k0, v0) :: dictInsert q v tl from by
        simp [dictInsert, h0]]
      have hne : ¬ q = k0 := fun h => h0 h.symm
      by_cases hq : q ∈ tl.map Prod.fst <;>
        simp [dictInsert_keys q v tl, hq, hne]

/-- A Python-dict assignment preserves distinctness of the keys. -/
theorem dictInsert_keys_nodup {α : Type} (q : PyStr) (v : α)
    (l : List (PyStr × α)) (h : (l.map Prod.fst).Nodup) :
    ((dictInsert q v l).map Prod.fst).Nodup := by
  rw [dictInsert_keys]
  by_cases hq : q ∈ l.map Prod.fst
  · rwa [if_pos hq]
  · rw [if_neg hq]
    simp [List.nodup_append, h, hq]

/-- `lastWins` over a freshly arrived handle. -/
theorem lastWins_cons (k k' : PyStr) (v : FoundReceiver)
    (l : List (PyStr × FoundReceiver)) :
    lastWins k ((k', v) :: l) =
      (lastWins k l).or (if k' = k then some v else none) := by
  unfold lastWins
  by_cases hk : k' = k
  · rw [List.filter_cons_of_pos (by simp [hk]), getLast?_cons_or]
    cases (List.filter (fun p => decide (p.1 = k)) l).getLast? with
    | none => simp [hk]
    | some x => simp [hk]
  · rw [List.filter_cons_of_neg (by simp [hk])]
    cases (List.filter (fun p => decide (p.1 = k)) l).getLast? with
    | none => simp [hk]
    | some x => simp [hk]

/-- The discovery loop keyed by identifier: the final dict has distinct
keys, and each key maps to the handle of the last response carrying it
(falling back to the starting accumulator for unseen keys). -/
theorem discoverLoop_spec :
    ∀ (rs : List (List Nat × PyStr)) (acc d : List (PyStr × FoundReceiver)),
      (acc.map Prod.fst).Nodup →
      discoverLoop rs acc = .ok d →
      (d.map Prod.fst).Nodup ∧
      ∀ k, alook k d = (lastWins k (parsedHandles rs)).or (alook k acc)
  | [], acc, d, hacc, h => by
    have hd : acc = d := by simpa [discoverLoop] using h
    subst hd
    refine ⟨hacc, fun k => ?_⟩
    simp [parsedHandles, lastWins]
  | (data, addr) :: rest, acc, d, hacc, h => by
    cases hp : parseInfo data with
    | error e => simp [discoverLoop, hp] at h
    | ok info =>
      have h' : discoverLoop rest
          (dictInsert info.identifier
            ⟨addr, decimalVal info.iscp_port, info⟩ acc) = .ok d := by
        simpa [discoverLoop, hp] using h
      obtain ⟨hnd, hlook⟩ := discoverLoop_spec rest _ d
        (dictInsert_keys_nodup _ _ _ hacc) h'
      refine ⟨hnd, fun k => ?_⟩
      rw [hlook k, alook_dictInsert,
        show parsedHandles ((data, addr) :: rest) =
          (info.identifier, ⟨addr, decimalVal info.iscp_port, info⟩) ::
            parsedHandles rest from by simp [parsedHandles, hp],
        lastWins_cons]
      cases lastWins k (parsedHandles rest) with
      | none => by_cases hik : info.identifier = k <;> simp [hik]
      | some x => by_cases hik : info.identifier = k <;> simp [hik]

/-- C7: for every list of discovery responses that the loop processes to
completion, the resulting dict has pairwise-distinct device identifiers —
responses sharing an identifier, regardless of source address, collapse to
exactly one receiver handle — and each identifier maps to the handle built
from the *last* response that carried it. -/
theorem discover_deduplicates_by_identifier :
    ∀ (rs : List (List Nat × PyStr)) (d : List (PyStr × FoundReceiver)),
      discoverDict rs = .ok d →
      (d.map Prod.fst).Nodup ∧
      ∀ k, alook k d = lastWins k (parsedHandles rs) := by
  intro rs d h
  obtain ⟨hnd, hlook⟩ := discoverLoop_spec rs [] d (by simp) h
  refine ⟨hnd, fun k => ?_⟩
  rw [hlook k]
  cases lastWins k (parsedHandles rs) <;> simp [alook]

/-- C7 (witness): two responses with the identical identifier
`0009B04562F1` from the different source addresses `10.0.0.5` and
`10.0.1.7` yield exactly one receiver handle, and the handle kept is the
last-seen one (host `10.0.1.7`). -/
theorem discover_deduplicates_by_identifier_witness :
    discoverDict discoveryResponsesW =
      .ok [(("0009B04562F1").data,
        ⟨("10.0.1.7").data, 60128,
          ⟨("1").data, ("TX-NR609").data, ("60128").data, ("DX").data,
            ("0009B04562F1").data⟩⟩)] ∧
    (([(("0009B04562F1").data,
        (⟨("10.0.1.7").data, 60128,
          ⟨("1").data, ("TX-NR609").data, ("60128").data, ("DX").data,
            ("0009B04562F1").data⟩⟩ : FoundReceiver))].map Prod.fst).Nodup ∧
      ∀ k, alook k [(("0009B04562F1").data,
        (⟨("10.0.1.7").data, 60128,
          ⟨("1").data, ("TX-NR609").data, ("60128").data, ("DX").data,
            ("0009B04562F1").data⟩⟩ : FoundReceiver))] =
        lastWins k (parsedHandles discoveryResponsesW)) := by
  have hconc : discoverDict discoveryResponsesW =
      .ok [(("0009B04562F1").data,
        ⟨("10.0.1.7").data, 60128,
          ⟨("1").data, ("TX-NR609").data, ("60128").data, ("DX").data,
            ("0009B04562F1").data⟩⟩)] := by decide
  exact ⟨hconc, discover_deduplicates_by_identifier discoveryResponsesW _ hconc⟩

/-- C10 (witness): the endpoints of the range `0..100` are members, `101`
is not, and the endpoint arguments are accepted. -/
theorem valueRange_membership_inclusive_witness :
    ((ValueRange.mk' 0 100).contains 0 = true ↔ (0:ℤ) ≤ 0 ∧ (0:ℤ) ≤ 100) ∧
    commandToIscp ("main.master-volume=0".data) = .ok ("MVL00".data) ∧
    commandToIscp ("main.master-volume=100".data) = .ok ("MVL64".data) :=
  valueRange_membership_inclusive 0 100 0 (by decide)

end Eiscp
